import Mathlib

/-!
Verification of the CRUD request/response contract of the `api` Django app
(`api/models.py`, `api/serializer.py`, `api/views.py`, `api/urls.py`).

The embedding is shallow: the persistent store is a list of rows plus the
auto-increment counter, a request body is the parsed JSON object restricted to
the keys the serializer reads, and each view function of `api/views.py` is a
Lean function from store and request to response and new store.

`UserSerializer` is a `ModelSerializer` with `fields = '__all__'` over the
model `User(age = IntegerField(), name = CharField(max_length=100))`.  Its
behaviour is the Django REST Framework field semantics for those
declarations, which we embed faithfully:
* the auto primary key `id` is read-only, so it is serialized on output and
  ignored on input;
* `CharField` (defaults `allow_blank=False`, `trim_whitespace=True`) rejects
  a missing value, `null`, booleans, arrays and objects; it stringifies
  strings, ints and floats, strips surrounding whitespace (the Python
  whitespace set), rejects the blank result, and enforces `max_length` on
  the trimmed value;
* `IntegerField` rejects a missing value, `null`, booleans, arrays and
  objects; it accepts any integer, and accepts a string of at most 1000
  characters or a float whose `str()` form, after dropping a trailing
  `.0…0` (DRF `re_decimal`), parses under Python `int()` (Unicode decimal
  digits, PEP 515 underscore grouping).

The routing layer embeds DRF's `@api_view` dispatch: the decorator sets
`http_method_names` to the listed methods plus `options`
(`allowed_methods = set(http_method_names) | {'options'}` in
`rest_framework/decorators.py`), and `APIView.dispatch` answers 405 for any
method outside that list before any handler attribute is consulted.  Hence
OPTIONS is answered 200 by `APIView`'s default metadata handler on every
route, while HEAD and TRACE get 405 like any unlisted method (Django's
`View.setup` alias of `head` to `get` is unreachable here, because `head`
is not in the overridden `http_method_names`).
-/

/-- A JSON value as it may appear in a field of a request body.  A JSON
number that `json.loads` turns into a Python float is represented by
`jfloat r`, where `r` is the decimal string `str()` produces for it (for
example `jfloat "7.5"`, `jfloat "25.0"`, `jfloat "1e+16"`): both validators
consume a float only through `str(data)`, so carrying that string embeds the
float exactly, with no floating-point arithmetic in the model.  Arrays and
objects carry no payload because the two field validators never inspect
their contents. -/
inductive JsonVal where
  | jnull
  | jbool (b : Bool)
  | jint (n : Int)
  | jstr (s : String)
  | jfloat (r : String)
  | jarr
  | jobj
  deriving DecidableEq, Repr

/-- A parsed JSON request body as `UserSerializer(data=request.data)` sees it:
the three keys the serializer could look at, each possibly absent.  Other keys
are ignored by the serializer and hence not modelled.  `idField` models an
`id` key supplied by the client: the auto primary key is read-only in a
`ModelSerializer`, so no handler ever reads it. -/
structure ReqBody where
  idField : Option JsonVal
  nameField : Option JsonVal
  ageField : Option JsonVal
  deriving DecidableEq, Repr

/-- Drop the longest suffix of characters satisfying `p`. -/
def dropTrailing (p : Char → Bool) (cs : List Char) : List Char :=
  (cs.reverse.dropWhile p).reverse

/-- The characters Python treats as whitespace (`Py_UNICODE_ISSPACE`, the set
behind `str.strip()`, `str.isspace()`, the surrounding-whitespace rule of
`int()` and the `\s` class of `re` on `str` patterns): ASCII `\t\n\v\f\r`,
the controls U+1C-U+1F, space, NEL U+85, NBSP U+A0, OGHAM SPACE MARK U+1680,
the space separators U+2000-U+200A, LINE SEPARATOR U+2028, PARAGRAPH
SEPARATOR U+2029, NARROW NBSP U+202F, MEDIUM MATHEMATICAL SPACE U+205F and
IDEOGRAPHIC SPACE U+3000. -/
def pyIsSpace (c : Char) : Bool :=
  (0x9 ≤ c.toNat && c.toNat ≤ 0xd) ||
  (0x1c ≤ c.toNat && c.toNat ≤ 0x20) ||
  c.toNat = 0x85 || c.toNat = 0xa0 || c.toNat = 0x1680 ||
  (0x2000 ≤ c.toNat && c.toNat ≤ 0x200a) ||
  c.toNat = 0x2028 || c.toNat = 0x2029 ||
  c.toNat = 0x202f || c.toNat = 0x205f || c.toNat = 0x3000

/-- Python `str.strip()`: remove leading and trailing whitespace. -/
def pyStrip (s : String) : String :=
  String.mk (dropTrailing pyIsSpace (s.data.dropWhile pyIsSpace))

/-- DRF `IntegerField.re_decimal = re.compile(r'\.0*\s*$')` applied with
`sub('')`: remove a trailing dot followed by zeros and whitespace, so that
`"25.0"` may still parse as the integer 25; a string with no such suffix is
returned unchanged. -/
def stripReDecimal (s : String) : String :=
  let cs1 := dropTrailing pyIsSpace s.data
  let cs2 := dropTrailing (fun c => c = '0') cs1
  match cs2.getLast? with
  | some '.' => String.mk cs2.dropLast
  | _ => s

/-- First code points of the 66 runs of ten consecutive Unicode decimal
digits (category Nd, Unicode 14.0, the database of the CPython versions
Django 5 supports): these are exactly the characters Python's `int()`
accepts as digits, each run mapping to the values 0 through 9 in order. -/
def pyDecimalDigitStarts : List Nat :=
  [48, 1632, 1776, 1984, 2406, 2534, 2662, 2790, 2918, 3046, 3174, 3302,
   3430, 3558, 3664, 3792, 3872, 4160, 4240, 6112, 6160, 6470, 6608, 6784,
   6800, 6992, 7088, 7232, 7248, 42528, 43216, 43264, 43472, 43504, 43600,
   44016, 65296, 66720, 68912, 69734, 69872, 69942, 70096, 70384, 70736,
   70864, 71248, 71360, 71472, 71904, 72016, 72784, 73040, 73120, 92768,
   92864, 93008, 120782, 120792, 120802, 120812, 120822, 123200, 123632,
   125264, 130032]

/-- Decimal value of a character under Python's `int()`: its offset inside a
Unicode decimal-digit run, `none` for non-digits. -/
def pyDigit? (c : Char) : Option Nat :=
  match pyDecimalDigitStarts.find? (fun a => a ≤ c.toNat && c.toNat < a + 10) with
  | some a => some (c.toNat - a)
  | none => none

/-- Accumulate the value of a digit sequence with PEP 515 grouping: a single
underscore may stand between two digits, nowhere else.  The caller has
already checked that the sequence starts with a digit. -/
def pyDigitsCore : List Char → Nat → Option Nat
  | [], acc => some acc
  | '_' :: [], _ => none
  | '_' :: c2 :: rest, acc =>
      match pyDigit? c2 with
      | some d => pyDigitsCore rest (acc * 10 + d)
      | none => none
  | c :: rest, acc =>
      match pyDigit? c with
      | some d => pyDigitsCore rest (acc * 10 + d)
      | none => none

/-- A non-empty digit sequence that starts with a digit, with PEP 515
underscore grouping. -/
def pyParseDigits (cs : List Char) : Option Nat :=
  match cs with
  | [] => none
  | c :: _ => if (pyDigit? c).isSome then pyDigitsCore cs 0 else none

/-- Python `int(str)`: surrounding whitespace is ignored, then an optional
single ASCII sign followed by at least one Unicode decimal digit, with
single underscores allowed between digits. -/
def pyParseInt (s : String) : Option Int :=
  match (pyStrip s).data with
  | [] => none
  | '+' :: rest => (pyParseDigits rest).map (fun n => (n : Int))
  | '-' :: rest => (pyParseDigits rest).map (fun n => -(n : Int))
  | cs => (pyParseDigits cs).map (fun n => (n : Int))

/-- Validation of an already-stringified candidate for `name`: DRF strips
whitespace (`trim_whitespace=True`, Python `str.strip()`), rejects the blank
result (`allow_blank=False`), and runs the `MaxLengthValidator` on the
trimmed value. -/
def charCheck (maxLen : Nat) (s : String) : Except (List String) String :=
  let t := pyStrip s
  if t = "" then .error ["This field may not be blank."]
  else if maxLen < t.length then
    .error ["Ensure this field has no more than 100 characters."]
  else .ok t

/-- DRF `CharField.run_validation` for `name = models.CharField(max_length=100)`:
required, not null; booleans, arrays and objects are invalid; strings,
integers and floats are stringified and checked by `charCheck`. -/
def charFieldRun (maxLen : Nat) (v : Option JsonVal) : Except (List String) String :=
  match v with
  | none => .error ["This field is required."]
  | some .jnull => .error ["This field may not be null."]
  | some (.jbool _) => .error ["Not a valid string."]
  | some .jarr => .error ["Not a valid string."]
  | some .jobj => .error ["Not a valid string."]
  | some (.jint n) => charCheck maxLen (toString n)
  | some (.jstr s) => charCheck maxLen s
  | some (.jfloat r) => charCheck maxLen r

/-- DRF `IntegerField.run_validation` for `age = models.IntegerField()`:
required, not null; booleans (stringified to `"True"`/`"False"`), arrays and
objects never parse; an integer is accepted as is; a string is bounded by
`MAX_STRING_LENGTH = 1000` (a guard applied only to `str` input) and then,
like a float's `str()` form, parsed by `int(re_decimal.sub('', str(data)))`. -/
def intFieldRun (v : Option JsonVal) : Except (List String) Int :=
  match v with
  | none => .error ["This field is required."]
  | some .jnull => .error ["This field may not be null."]
  | some (.jbool _) => .error ["A valid integer is required."]
  | some .jarr => .error ["A valid integer is required."]
  | some .jobj => .error ["A valid integer is required."]
  | some (.jint n) => .ok n
  | some (.jstr s) =>
      if 1000 < s.length then .error ["String value too large."]
      else
        match pyParseInt (stripReDecimal s) with
        | some n => .ok n
        | none => .error ["A valid integer is required."]
  | some (.jfloat r) =>
      match pyParseInt (stripReDecimal r) with
      | some n => .ok n
      | none => .error ["A valid integer is required."]

/-- The serializer's `validated_data` on success: the two writable fields. -/
structure Validated where
  name : String
  age : Int
  deriving DecidableEq, Repr

/-- Contribution of one field to `serializer.errors`: nothing when the field
validated, otherwise the field name mapped to its list of messages. -/
def fieldErrs {α : Type} (key : String) (r : Except (List String) α) :
    List (String × List String) :=
  match r with
  | .ok _ => []
  | .error msgs => [(key, msgs)]

/-- `UserSerializer.is_valid()` over a request body: run both writable fields
(iteration order of the serializer is `age` before `name`, the model's
declaration order); on any failure collect `serializer.errors`, the mapping
from offending field name to its messages. -/
def validateBody (b : ReqBody) : Except (List (String × List String)) Validated :=
  match intFieldRun b.ageField, charFieldRun 100 b.nameField with
  | .ok a, .ok n => .ok ⟨n, a⟩
  | ra, rn => .error (fieldErrs "age" ra ++ fieldErrs "name" rn)

/-- A persisted row of the `User` model (`api/models.py`): auto integer
primary key, `name` and `age`. -/
structure User where
  id : Nat
  name : String
  age : Int
  deriving DecidableEq, Repr

/-- The single-table store behind `User.objects`, with the auto-increment
counter that generates the next primary key. -/
structure Store where
  rows : List User
  nextId : Nat
  deriving DecidableEq, Repr

/-- The JSON object `UserSerializer` produces for one row: all model fields,
`{id, name, age}`. -/
structure UserJson where
  id : Nat
  name : String
  age : Int
  deriving DecidableEq, Repr

/-- `UserSerializer(user).data`. -/
def toRepresentation (u : User) : UserJson :=
  ⟨u.id, u.name, u.age⟩

/-- Body of an HTTP response of the API: empty, one serialized user, a JSON
array of serialized users, the field-error mapping, or the endpoint-metadata
document that `APIView`'s default `options` handler produces (its contents —
view name, description, accepted renderers and parsers — are framework
boilerplate and are not modelled further). -/
inductive RespBody where
  | empty
  | userBody (u : UserJson)
  | listBody (l : List UserJson)
  | errorsBody (e : List (String × List String))
  | metadataBody
  deriving DecidableEq, Repr

/-- An HTTP response: status code and body. -/
structure Resp where
  status : Nat
  body : RespBody
  deriving DecidableEq, Repr

/-- The HTTP methods Django's `http_method_names` knows about.  Any method
name outside even this list is likewise answered 405 by `APIView.dispatch`,
so these eight representatives cover the whole method universe. -/
inductive Method where
  | GET
  | POST
  | PUT
  | DELETE
  | PATCH
  | HEAD
  | OPTIONS
  | TRACE
  deriving DecidableEq, Repr

/-- `get_users` (`api/views.py`): serialize `User.objects.all()` and return
it with the default 200 status. -/
def get_users (s : Store) : Resp × Store :=
  (⟨200, .listBody (s.rows.map toRepresentation)⟩, s)

/-- `create_user` (`api/views.py`): validate the body; on success persist a
new row under the generated id and answer 201 with its serialization; on
failure answer 400 with `serializer.errors`. -/
def create_user (s : Store) (b : ReqBody) : Resp × Store :=
  match validateBody b with
  | .ok v =>
      let u : User := ⟨s.nextId, v.name, v.age⟩
      (⟨201, .userBody (toRepresentation u)⟩, ⟨s.rows ++ [u], s.nextId + 1⟩)
  | .error e => (⟨400, .errorsBody e⟩, s)

/-- `user_detail` (`api/views.py`): look the row up by id, answering 404 with
an empty body when `User.objects.get` raises `DoesNotExist`; then branch on
the method: GET serializes the row; PUT validates the body and on success
overwrites the row's writable fields in place (the read-only id is kept),
answering 200 with the updated serialization, and on failure answers 400 with
the error mapping; DELETE removes the row and answers 204.  The final branch
is unreachable: `@api_view(['GET', 'PUT', 'DELETE'])` rejects every other
method before this function body runs (see `dispatch`). -/
def user_detail (s : Store) (m : Method) (user_id : Nat) (b : ReqBody) : Resp × Store :=
  match s.rows.find? (fun r => r.id == user_id) with
  | none => (⟨404, .empty⟩, s)
  | some u =>
    match m with
    | .GET => (⟨200, .userBody (toRepresentation u)⟩, s)
    | .PUT =>
        match validateBody b with
        | .ok v =>
            let u2 : User := ⟨u.id, v.name, v.age⟩
            (⟨200, .userBody (toRepresentation u2)⟩,
             ⟨s.rows.map (fun r => if r.id = user_id then u2 else r), s.nextId⟩)
        | .error e => (⟨400, .errorsBody e⟩, s)
    | .DELETE => (⟨204, .empty⟩, ⟨s.rows.filter (fun r => r.id != user_id), s.nextId⟩)
    | _ => (⟨405, .empty⟩, s)

/-- The three routes of `api/urls.py`: `users/`, `users/create`, and
`users/<int:user_id>/`. -/
inductive ApiPath where
  | usersList
  | usersCreate
  | userDetailPath (user_id : Nat)
  deriving DecidableEq, Repr

/-- The methods each view's `@api_view([...])` decorator admits. -/
def allowedMethods : ApiPath → List Method
  | .usersList => [.GET]
  | .usersCreate => [.POST]
  | .userDetailPath _ => [.GET, .PUT, .DELETE]

/-- `WrappedAPIView.http_method_names` as `@api_view` sets it:
`allowed_methods = set(http_method_names) | {'options'}` — the listed
methods plus OPTIONS. -/
def httpMethodNames (p : ApiPath) : List Method :=
  allowedMethods p ++ [.OPTIONS]

/-- Routing plus `APIView.dispatch` under the `@api_view` decorator: a
request whose method is not in `http_method_names` (so also HEAD and TRACE —
the decorator's override makes Django's `head`-to-`get` alias unreachable)
is answered 405 Method Not Allowed before any handler is consulted; OPTIONS,
which the decorator always admits, is answered 200 by `APIView`'s default
metadata handler (none of the three views lists OPTIONS, so the wrapped
function never handles it); every listed method reaches the matched view. -/
def dispatch (s : Store) (m : Method) (p : ApiPath) (b : ReqBody) : Resp × Store :=
  if m ∈ httpMethodNames p then
    if m = .OPTIONS then (⟨200, .metadataBody⟩, s)
    else
      match p with
      | .usersList => get_users s
      | .usersCreate => create_user s b
      | .userDetailPath user_id => user_detail s m user_id b
  else (⟨405, .empty⟩, s)

/-- The constraints validation enforces on a persisted `name`. -/
def validPersistedName (n : String) : Prop :=
  n ≠ "" ∧ n.length ≤ 100

/-- Well-formedness of the store: primary keys are pairwise distinct, every
key is below the auto-increment counter, and every persisted name satisfies
the model's constraints. -/
def Store.WF (s : Store) : Prop :=
  s.rows.Pairwise (fun a b => a.id ≠ b.id) ∧
  (∀ u ∈ s.rows, u.id < s.nextId) ∧
  (∀ u ∈ s.rows, validPersistedName u.name)

instance (s : Store) : Decidable s.WF := by
  unfold Store.WF validPersistedName
  infer_instance

/-- Whether validation succeeded. -/
def exceptOk {ε α : Type} : Except ε α → Bool
  | .ok _ => true
  | .error _ => false

/-! ## Helper lemmas -/

theorem dispatch_usersList_GET (s : Store) (b : ReqBody) :
    dispatch s .GET .usersList b = get_users s := rfl

theorem dispatch_usersCreate_POST (s : Store) (b : ReqBody) :
    dispatch s .POST .usersCreate b = create_user s b := rfl

theorem dispatch_detail_GET (s : Store) (uid : Nat) (b : ReqBody) :
    dispatch s .GET (.userDetailPath uid) b = user_detail s .GET uid b := rfl

theorem dispatch_detail_PUT (s : Store) (uid : Nat) (b : ReqBody) :
    dispatch s .PUT (.userDetailPath uid) b = user_detail s .PUT uid b := rfl

theorem dispatch_detail_DELETE (s : Store) (uid : Nat) (b : ReqBody) :
    dispatch s .DELETE (.userDetailPath uid) b = user_detail s .DELETE uid b := rfl

theorem charCheck_ok (maxLen : Nat) (s t : String) (h : charCheck maxLen s = .ok t) :
    t = pyStrip s ∧ t ≠ "" ∧ t.length ≤ maxLen := by
  unfold charCheck at h
  by_cases h1 : pyStrip s = ""
  · simp [h1] at h
  · by_cases h2 : maxLen < (pyStrip s).length
    · simp [h1, h2] at h
    · simp [h1, h2] at h
      subst h
      exact ⟨rfl, h1, by omega⟩

theorem charFieldRun_ok (v : Option JsonVal) (t : String)
    (h : charFieldRun 100 v = .ok t) : t ≠ "" ∧ t.length ≤ 100 := by
  unfold charFieldRun at h
  rcases v with _ | v
  · cases h
  · rcases v with _ | b | n | s | r | _ | _
    · cases h
    · cases h
    · exact (charCheck_ok _ _ _ h).2
    · exact (charCheck_ok _ _ _ h).2
    · exact (charCheck_ok _ _ _ h).2
    · cases h
    · cases h

theorem validateBody_ok_elim (b : ReqBody) (v : Validated)
    (h : validateBody b = .ok v) :
    intFieldRun b.ageField = .ok v.age ∧ charFieldRun 100 b.nameField = .ok v.name := by
  unfold validateBody at h
  cases hA : intFieldRun b.ageField <;> cases hN : charFieldRun 100 b.nameField <;>
    rw [hA, hN] at h <;> cases h <;> simp_all

theorem validateBody_ok_name (b : ReqBody) (v : Validated)
    (h : validateBody b = .ok v) : validPersistedName v.name :=
  charFieldRun_ok _ _ (validateBody_ok_elim b v h).2

theorem find?_append_new (l : List User) (a : User) (k : Nat)
    (h : ∀ x ∈ l, x.id ≠ k) (ha : a.id = k) :
    (l ++ [a]).find? (fun r => r.id == k) = some a := by
  induction l with
  | nil =>
      exact List.find?_cons_of_pos _ (by simp [ha])
  | cons x xs ih =>
      have hx : ¬((fun r => r.id == k) x = true) := by
        simpa using h x (List.mem_cons_self x xs)
      rw [List.cons_append, @List.find?_cons_of_neg User (fun r => r.id == k) x (xs ++ [a]) hx]
      exact ih fun y hy => h y (List.mem_cons_of_mem x hy)

theorem filter_ne_length (l : List User) (k : Nat) (u : User)
    (hp : l.Pairwise (fun a b => a.id ≠ b.id)) (hu : u ∈ l) (hid : u.id = k) :
    (l.filter (fun r => r.id != k)).length + 1 = l.length := by
  induction l with
  | nil => cases hu
  | cons x xs ih =>
      rcases List.pairwise_cons.1 hp with ⟨hx, hxs⟩
      rcases List.mem_cons.1 hu with rfl | hu2
      · have hkeep : xs.filter (fun r => r.id != k) = xs := by
          refine List.filter_eq_self.2 fun y hy => ?_
          have : u.id ≠ y.id := hx y hy
          simp [bne_iff_ne]
          omega
        rw [List.filter_cons]
        simp [hid, hkeep]
      · have hxk : x.id ≠ k := by
          have := hx u hu2
          omega
        rw [List.filter_cons]
        have : (x.id != k) = true := bne_iff_ne.2 hxk
        simp only [this, if_pos]
        have := ih hxs hu2
        simp
        omega

theorem find?_filter_ne (l : List User) (k : Nat) :
    (l.filter (fun r => r.id != k)).find? (fun r => r.id == k) = none := by
  refine List.find?_eq_none.2 fun x hx => ?_
  have hne : x.id ≠ k := bne_iff_ne.1 (List.mem_filter.1 hx).2
  simp [hne]

/-! ## Claim theorems -/

/-- C8: GET `users/` always answers 200 with the serialization of every
persisted row in store order (the empty array on the empty store), one
`{id, name, age}` object per row, and leaves the store unchanged. -/
theorem get_users_lists_all (s : Store) (b : ReqBody) :
    dispatch s .GET .usersList b = (⟨200, .listBody (s.rows.map toRepresentation)⟩, s) ∧
    (s.rows.map toRepresentation).length = s.rows.length ∧
    ∀ (i : Nat) (r : User), s.rows[i]? = some r →
      (s.rows.map toRepresentation)[i]? = some (toRepresentation r) := by
  refine ⟨rfl, by simp, fun i r h => ?_⟩
  rw [List.getElem?_map, h, Option.map_some']

/-- C4: a GET, PUT or DELETE on `users/<int:user_id>/` for an id that is not
in the store is answered 404 Not Found with an empty body, and the store is
unchanged. -/
theorem detail_missing_id_404 (s : Store) (uid : Nat) (m : Method) (b : ReqBody)
    (hm : m = .GET ∨ m = .PUT ∨ m = .DELETE)
    (h : s.rows.find? (fun r => r.id == uid) = none) :
    dispatch s m (.userDetailPath uid) b = (⟨404, .empty⟩, s) := by
  rcases hm with rfl | rfl | rfl
  · rw [dispatch_detail_GET]
    unfold user_detail
    rw [h]
  · rw [dispatch_detail_PUT]
    unfold user_detail
    rw [h]
  · rw [dispatch_detail_DELETE]
    unfold user_detail
    rw [h]

theorem detail_missing_id_404_witness :
    (Method.GET = Method.GET ∨ Method.GET = Method.PUT ∨ Method.GET = Method.DELETE) ∧
    ([⟨1, "A", 1⟩] : List User).find? (fun r => r.id == 7) = none ∧
    dispatch ⟨[⟨1, "A", 1⟩], 2⟩ .GET (.userDetailPath 7) ⟨none, none, none⟩
      = (⟨404, .empty⟩, ⟨[⟨1, "A", 1⟩], 2⟩) :=
  ⟨Or.inl rfl, by decide,
    detail_missing_id_404 ⟨[⟨1, "A", 1⟩], 2⟩ 7 .GET ⟨none, none, none⟩ (Or.inl rfl) (by decide)⟩

/-- C5: DELETE on an id present in the store answers 204 No Content with an
empty body and removes exactly that record: the count drops by one, every
other record stays in the store, and everything left was already there with a
different id; a second DELETE on the same id is then answered 404, not 204. -/
theorem delete_removes_exactly_one (s : Store) (uid : Nat) (b b2 : ReqBody) (u : User)
    (hWF : s.WF) (h : s.rows.find? (fun r => r.id == uid) = some u) :
    (dispatch s .DELETE (.userDetailPath uid) b).1 = ⟨204, .empty⟩ ∧
    (dispatch s .DELETE (.userDetailPath uid) b).2.rows.length + 1 = s.rows.length ∧
    (∀ r ∈ s.rows, r.id ≠ uid → r ∈ (dispatch s .DELETE (.userDetailPath uid) b).2.rows) ∧
    (∀ r ∈ (dispatch s .DELETE (.userDetailPath uid) b).2.rows, r ∈ s.rows ∧ r.id ≠ uid) ∧
    (dispatch (dispatch s .DELETE (.userDetailPath uid) b).2 .DELETE (.userDetailPath uid) b2).1
      = ⟨404, .empty⟩ := by
  have hmem : u ∈ s.rows := List.mem_of_find?_eq_some h
  have hid : u.id = uid := by simpa using List.find?_some h
  have hstep : dispatch s .DELETE (.userDetailPath uid) b
      = (⟨204, .empty⟩, ⟨s.rows.filter (fun r => r.id != uid), s.nextId⟩) := by
    rw [dispatch_detail_DELETE]
    unfold user_detail
    rw [h]
  rw [hstep]
  refine ⟨rfl, filter_ne_length s.rows uid u hWF.1 hmem hid, ?_, ?_, ?_⟩
  · intro r hr hne
    exact List.mem_filter.2 ⟨hr, bne_iff_ne.2 hne⟩
  · intro r hr
    exact ⟨(List.mem_filter.1 hr).1, bne_iff_ne.1 (List.mem_filter.1 hr).2⟩
  · rw [dispatch_detail_DELETE]
    unfold user_detail
    rw [find?_filter_ne]

/-- C6: PUT on an id present in the store with a body that validates answers
200 with the serialization of the updated record, which keeps the looked-up
id and takes both validated fields from the body; the counter and the row
count are unchanged, and positionally every row with a different id is left
byte-for-byte unchanged while the row with that id is overwritten in place. -/
theorem put_updates_in_place (s : Store) (uid : Nat) (b : ReqBody) (u : User) (v : Validated)
    (h : s.rows.find? (fun r => r.id == uid) = some u)
    (hv : validateBody b = .ok v) :
    (dispatch s .PUT (.userDetailPath uid) b).1 = ⟨200, .userBody ⟨uid, v.name, v.age⟩⟩ ∧
    (dispatch s .PUT (.userDetailPath uid) b).2.nextId = s.nextId ∧
    (dispatch s .PUT (.userDetailPath uid) b).2.rows.length = s.rows.length ∧
    ∀ (i : Nat) (r : User), s.rows[i]? = some r →
      (dispatch s .PUT (.userDetailPath uid) b).2.rows[i]?
        = some (if r.id = uid then ⟨uid, v.name, v.age⟩ else r) := by
  have hid : u.id = uid := by simpa using List.find?_some h
  subst hid
  have hstep : dispatch s .PUT (.userDetailPath u.id) b
      = (⟨200, .userBody ⟨u.id, v.name, v.age⟩⟩,
         ⟨s.rows.map (fun r => if r.id = u.id then ⟨u.id, v.name, v.age⟩ else r), s.nextId⟩) := by
    rw [dispatch_detail_PUT]
    unfold user_detail
    rw [h, hv]
    rfl
  rw [hstep]
  refine ⟨rfl, rfl, by simp, fun i r hr => ?_⟩
  rw [List.getElem?_map, hr, Option.map_some']

/-- C7: POST `users/create` with a body that validates persists exactly one
new record, appended under the generated id, bumps the counter, and answers
201 Created with the full serialized record including that id. -/
theorem create_persists_one (s : Store) (b : ReqBody) (v : Validated)
    (hv : validateBody b = .ok v) :
    dispatch s .POST .usersCreate b =
      (⟨201, .userBody ⟨s.nextId, v.name, v.age⟩⟩,
       ⟨s.rows ++ [⟨s.nextId, v.name, v.age⟩], s.nextId + 1⟩) ∧
    (dispatch s .POST .usersCreate b).2.rows.length = s.rows.length + 1 := by
  rw [dispatch_usersCreate_POST]
  unfold create_user
  rw [hv]
  exact ⟨rfl, by simp⟩

theorem delete_removes_exactly_one_witness :
    (Store.mk [⟨1, "A", 1⟩, ⟨2, "B", 2⟩] 3).WF ∧
    ([⟨1, "A", 1⟩, ⟨2, "B", 2⟩] : List User).find? (fun r => r.id == 1) = some ⟨1, "A", 1⟩ ∧
    (dispatch ⟨[⟨1, "A", 1⟩, ⟨2, "B", 2⟩], 3⟩ .DELETE (.userDetailPath 1) ⟨none, none, none⟩).1
      = ⟨204, .empty⟩ :=
  ⟨by decide, by decide,
    (delete_removes_exactly_one ⟨[⟨1, "A", 1⟩, ⟨2, "B", 2⟩], 3⟩ 1 ⟨none, none, none⟩
      ⟨none, none, none⟩ ⟨1, "A", 1⟩ (by decide) (by decide)).1⟩

theorem put_updates_in_place_witness :
    ([⟨1, "A", 1⟩, ⟨2, "B", 2⟩] : List User).find? (fun r => r.id == 2) = some ⟨2, "B", 2⟩ ∧
    validateBody ⟨none, some (.jstr "Bob"), some (.jint 30)⟩ = .ok ⟨"Bob", 30⟩ ∧
    (dispatch ⟨[⟨1, "A", 1⟩, ⟨2, "B", 2⟩], 3⟩ .PUT (.userDetailPath 2)
        ⟨none, some (.jstr "Bob"), some (.jint 30)⟩).1
      = ⟨200, .userBody ⟨2, "Bob", 30⟩⟩ :=
  ⟨by decide, rfl,
    (put_updates_in_place ⟨[⟨1, "A", 1⟩, ⟨2, "B", 2⟩], 3⟩ 2
      ⟨none, some (.jstr "Bob"), some (.jint 30)⟩ ⟨2, "B", 2⟩ ⟨"Bob", 30⟩
      (by decide) rfl).1⟩

theorem create_persists_one_witness :
    validateBody ⟨none, some (.jstr "C"), some (.jint 3)⟩ = .ok ⟨"C", 3⟩ ∧
    dispatch ⟨[], 1⟩ .POST .usersCreate ⟨none, some (.jstr "C"), some (.jint 3)⟩
      = (⟨201, .userBody ⟨1, "C", 3⟩⟩, ⟨[⟨1, "C", 3⟩], 2⟩) :=
  ⟨rfl,
    (create_persists_one ⟨[], 1⟩ ⟨none, some (.jstr "C"), some (.jint 3)⟩ ⟨"C", 3⟩ rfl).1⟩

/-- C2: on a well-formed store, a POST `users/create` that answers with a
serialized user, followed by GET `users/<id>/` on the id that POST returned,
answers 200 with exactly the same serialized `{id, name, age}` object. -/
theorem post_then_get_roundtrip (s : Store) (b gb : ReqBody) (u : UserJson)
    (hWF : s.WF)
    (h : (dispatch s .POST .usersCreate b).1.body = .userBody u) :
    (dispatch (dispatch s .POST .usersCreate b).2 .GET (.userDetailPath u.id) gb).1
      = ⟨200, .userBody u⟩ := by
  rw [dispatch_usersCreate_POST] at h ⊢
  cases hv : validateBody b with
  | error e =>
      have hcr : create_user s b = (⟨400, .errorsBody e⟩, s) := by
        unfold create_user
        rw [hv]
      rw [hcr] at h
      cases h
  | ok v =>
      have hcr : create_user s b
          = (⟨201, .userBody ⟨s.nextId, v.name, v.age⟩⟩,
             ⟨s.rows ++ [⟨s.nextId, v.name, v.age⟩], s.nextId + 1⟩) := by
        unfold create_user
        rw [hv]
        rfl
      rw [hcr] at h
      have hu : u = ⟨s.nextId, v.name, v.age⟩ := by
        injection h with h2
        exact h2.symm
      subst hu
      have hfind : (s.rows ++ [(⟨s.nextId, v.name, v.age⟩ : User)]).find?
          (fun r => r.id == (⟨s.nextId, v.name, v.age⟩ : UserJson).id)
          = some ⟨s.nextId, v.name, v.age⟩ :=
        find?_append_new s.rows _ _ (fun x hx => Nat.ne_of_lt (hWF.2.1 x hx)) rfl
      simp only [hcr, dispatch_detail_GET]
      unfold user_detail
      rw [hfind]
      rfl

theorem post_then_get_roundtrip_witness :
    (Store.mk [⟨1, "A", 1⟩] 2).WF ∧
    (dispatch ⟨[⟨1, "A", 1⟩], 2⟩ .POST .usersCreate ⟨none, some (.jstr "C"), some (.jint 3)⟩).1.body
      = .userBody ⟨2, "C", 3⟩ ∧
    (dispatch (dispatch ⟨[⟨1, "A", 1⟩], 2⟩ .POST .usersCreate
        ⟨none, some (.jstr "C"), some (.jint 3)⟩).2 .GET (.userDetailPath 2) ⟨none, none, none⟩).1
      = ⟨200, .userBody ⟨2, "C", 3⟩⟩ :=
  ⟨by decide, by decide,
    post_then_get_roundtrip ⟨[⟨1, "A", 1⟩], 2⟩ ⟨none, some (.jstr "C"), some (.jint 3)⟩
      ⟨none, none, none⟩ ⟨2, "C", 3⟩ (by decide) (by decide)⟩

/-- C3 is refuted as stated: a PUT on an id that is not in the store with a
body that fails validation is answered 404, not the claimed 400, because the
lookup precedes validation (the store is indeed left unchanged). -/
theorem put_invalid_body_missing_id_404 :
    exceptOk (validateBody ⟨none, some (.jstr ""), some (.jstr "abc")⟩) = false ∧
    (dispatch ⟨[], 1⟩ .PUT (.userDetailPath 1)
        ⟨none, some (.jstr ""), some (.jstr "abc")⟩).1.status = 404 ∧
    (dispatch ⟨[], 1⟩ .PUT (.userDetailPath 1)
        ⟨none, some (.jstr ""), some (.jstr "abc")⟩).1.status ≠ 400 :=
  ⟨rfl, by decide, by decide⟩

/-- C3 (amended): a POST or PUT whose body fails validation never mutates the
store; POST is answered 400 with the field-error mapping, and PUT is answered
400 with that mapping when the target id exists, and 404 (validation is never
reached) when it does not. -/
theorem invalid_body_is_atomic (s : Store) (uid : Nat) (b : ReqBody)
    (e : List (String × List String)) (h : validateBody b = .error e) :
    dispatch s .POST .usersCreate b = (⟨400, .errorsBody e⟩, s) ∧
    (dispatch s .PUT (.userDetailPath uid) b).2 = s ∧
    (∀ u, s.rows.find? (fun r => r.id == uid) = some u →
      (dispatch s .PUT (.userDetailPath uid) b).1 = ⟨400, .errorsBody e⟩) ∧
    (s.rows.find? (fun r => r.id == uid) = none →
      (dispatch s .PUT (.userDetailPath uid) b).1 = ⟨404, .empty⟩) := by
  have hpost : create_user s b = (⟨400, .errorsBody e⟩, s) := by
    unfold create_user
    rw [h]
  refine ⟨by rw [dispatch_usersCreate_POST, hpost], ?_, ?_, ?_⟩
  · rw [dispatch_detail_PUT]
    unfold user_detail
    cases hf : s.rows.find? (fun r => r.id == uid) with
    | none => rfl
    | some u =>
        rw [h]
  · intro u hf
    rw [dispatch_detail_PUT]
    unfold user_detail
    rw [hf, h]
  · intro hf
    rw [dispatch_detail_PUT]
    unfold user_detail
    rw [hf]

theorem invalid_body_is_atomic_witness :
    validateBody ⟨none, some (.jstr ""), some (.jstr "abc")⟩
      = .error [("age", ["A valid integer is required."]),
                ("name", ["This field may not be blank."])] ∧
    dispatch ⟨[⟨1, "A", 1⟩], 2⟩ .POST .usersCreate ⟨none, some (.jstr ""), some (.jstr "abc")⟩
      = (⟨400, .errorsBody [("age", ["A valid integer is required."]),
                            ("name", ["This field may not be blank."])]⟩,
         ⟨[⟨1, "A", 1⟩], 2⟩) :=
  ⟨rfl,
    (invalid_body_is_atomic ⟨[⟨1, "A", 1⟩], 2⟩ 1 ⟨none, some (.jstr ""), some (.jstr "abc")⟩
      [("age", ["A valid integer is required."]), ("name", ["This field may not be blank."])]
      rfl).1⟩

theorem putReplId (u : User) (uid : Nat) (v : Validated) (hid : u.id = uid) (r : User) :
    ((if r.id = uid then (⟨u.id, v.name, v.age⟩ : User) else r)).id = r.id := by
  by_cases hr : r.id = uid
  · simp [hr, hid]
  · simp [hr]

theorem create_user_WF (s : Store) (b : ReqBody) (hWF : s.WF) : (create_user s b).2.WF := by
  cases hv : validateBody b with
  | error e =>
      have hcr : create_user s b = (⟨400, .errorsBody e⟩, s) := by
        unfold create_user
        rw [hv]
      rw [hcr]
      exact hWF
  | ok v =>
      have hcr : create_user s b
          = (⟨201, .userBody ⟨s.nextId, v.name, v.age⟩⟩,
             ⟨s.rows ++ [⟨s.nextId, v.name, v.age⟩], s.nextId + 1⟩) := by
        unfold create_user
        rw [hv]
        rfl
      rw [hcr]
      obtain ⟨hp, hlt, hnm⟩ := hWF
      refine ⟨?_, ?_, ?_⟩
      · rw [List.pairwise_append]
        refine ⟨hp, List.pairwise_singleton _ _, ?_⟩
        intro x hx y hy
        rw [List.mem_singleton] at hy
        subst hy
        exact Nat.ne_of_lt (hlt x hx)
      · intro x hx
        rcases List.mem_append.1 hx with h1 | h1
        · exact Nat.lt_succ_of_lt (hlt x h1)
        · rw [List.mem_singleton] at h1
          subst h1
          exact Nat.lt_succ_self _
      · intro x hx
        rcases List.mem_append.1 hx with h1 | h1
        · exact hnm x h1
        · rw [List.mem_singleton] at h1
          subst h1
          exact validateBody_ok_name b v hv

theorem user_detail_WF (s : Store) (m : Method) (uid : Nat) (b : ReqBody) (hWF : s.WF) :
    (user_detail s m uid b).2.WF := by
  unfold user_detail
  cases hf : s.rows.find? (fun r => r.id == uid) with
  | none => exact hWF
  | some u =>
      have hid : u.id = uid := by simpa using List.find?_some hf
      cases m with
      | GET => exact hWF
      | POST => exact hWF
      | PATCH => exact hWF
      | HEAD => exact hWF
      | OPTIONS => exact hWF
      | TRACE => exact hWF
      | DELETE =>
          obtain ⟨hp, hlt, hnm⟩ := hWF
          refine ⟨List.Pairwise.sublist (List.filter_sublist _) hp, ?_, ?_⟩
          · intro x hx
            exact hlt x (List.mem_filter.1 hx).1
          · intro x hx
            exact hnm x (List.mem_filter.1 hx).1
      | PUT =>
          cases hv : validateBody b with
          | error e => exact hWF
          | ok v =>
              obtain ⟨hp, hlt, hnm⟩ := hWF
              show Store.WF
                ⟨s.rows.map (fun r => if r.id = uid then ⟨u.id, v.name, v.age⟩ else r), s.nextId⟩
              refine ⟨?_, ?_, ?_⟩
              · refine List.pairwise_map.2 (hp.imp ?_)
                intro a c hac
                rw [putReplId u uid v hid, putReplId u uid v hid]
                exact hac
              · intro x hx
                rcases List.mem_map.1 hx with ⟨r, hr, rfl⟩
                rw [putReplId u uid v hid]
                exact hlt r hr
              · intro x hx
                rcases List.mem_map.1 hx with ⟨r, hr, rfl⟩
                by_cases hc : r.id = uid
                · simp only [hc, if_pos]
                  exact validateBody_ok_name b v hv
                · simp only [hc, if_neg]
                  exact hnm r hr

theorem dispatch_WF (s : Store) (m : Method) (p : ApiPath) (b : ReqBody) (hWF : s.WF) :
    (dispatch s m p b).2.WF := by
  unfold dispatch
  by_cases hm : m ∈ httpMethodNames p
  · rw [if_pos hm]
    by_cases ho : m = .OPTIONS
    · rw [if_pos ho]
      exact hWF
    · rw [if_neg ho]
      cases p with
      | usersList => exact hWF
      | usersCreate => exact create_user_WF s b hWF
      | userDetailPath uid => exact user_detail_WF s m uid b hWF
  · rw [if_neg hm]
    exact hWF

theorem create_user_ids (s : Store) (b : ReqBody) :
    ∀ r ∈ (create_user s b).2.rows, r.id = s.nextId ∨ ∃ r0 ∈ s.rows, r0.id = r.id := by
  cases hv : validateBody b with
  | error e =>
      have hcr : create_user s b = (⟨400, .errorsBody e⟩, s) := by
        unfold create_user
        rw [hv]
      rw [hcr]
      intro r hr
      exact Or.inr ⟨r, hr, rfl⟩
  | ok v =>
      have hcr : create_user s b
          = (⟨201, .userBody ⟨s.nextId, v.name, v.age⟩⟩,
             ⟨s.rows ++ [⟨s.nextId, v.name, v.age⟩], s.nextId + 1⟩) := by
        unfold create_user
        rw [hv]
        rfl
      rw [hcr]
      intro r hr
      rcases List.mem_append.1 hr with h1 | h1
      · exact Or.inr ⟨r, h1, rfl⟩
      · rw [List.mem_singleton] at h1
        subst h1
        exact Or.inl rfl

theorem user_detail_ids (s : Store) (m : Method) (uid : Nat) (b : ReqBody) :
    ∀ r ∈ (user_detail s m uid b).2.rows, ∃ r0 ∈ s.rows, r0.id = r.id := by
  unfold user_detail
  cases hf : s.rows.find? (fun r => r.id == uid) with
  | none => exact fun r hr => ⟨r, hr, rfl⟩
  | some u =>
      have hid : u.id = uid := by simpa using List.find?_some hf
      cases m with
      | GET => exact fun r hr => ⟨r, hr, rfl⟩
      | POST => exact fun r hr => ⟨r, hr, rfl⟩
      | PATCH => exact fun r hr => ⟨r, hr, rfl⟩
      | HEAD => exact fun r hr => ⟨r, hr, rfl⟩
      | OPTIONS => exact fun r hr => ⟨r, hr, rfl⟩
      | TRACE => exact fun r hr => ⟨r, hr, rfl⟩
      | DELETE => exact fun r hr => ⟨r, (List.mem_filter.1 hr).1, rfl⟩
      | PUT =>
          cases hv : validateBody b with
          | error e => exact fun r hr => ⟨r, hr, rfl⟩
          | ok v =>
              intro r hr
              rcases List.mem_map.1 hr with ⟨r0, hr0, rfl⟩
              exact ⟨r0, hr0, (putReplId u uid v hid r0).symm⟩

theorem dispatch_ids (s : Store) (m : Method) (p : ApiPath) (b : ReqBody) :
    ∀ r ∈ (dispatch s m p b).2.rows, r.id = s.nextId ∨ ∃ r0 ∈ s.rows, r0.id = r.id := by
  unfold dispatch
  by_cases hm : m ∈ httpMethodNames p
  · rw [if_pos hm]
    by_cases ho : m = .OPTIONS
    · rw [if_pos ho]
      exact fun r hr => Or.inr ⟨r, hr, rfl⟩
    · rw [if_neg ho]
      cases p with
      | usersList => exact fun r hr => Or.inr ⟨r, hr, rfl⟩
      | usersCreate => exact create_user_ids s b
      | userDetailPath uid => exact fun r hr => Or.inr (user_detail_ids s m uid b r hr)
  · rw [if_neg hm]
    exact fun r hr => Or.inr ⟨r, hr, rfl⟩

theorem put_preserves_ids (s : Store) (uid : Nat) (b : ReqBody) :
    (dispatch s .PUT (.userDetailPath uid) b).2.rows.map User.id = s.rows.map User.id := by
  rw [dispatch_detail_PUT]
  unfold user_detail
  cases hf : s.rows.find? (fun r => r.id == uid) with
  | none => rfl
  | some u =>
      have hid : u.id = uid := by simpa using List.find?_some hf
      cases hv : validateBody b with
      | error e => rfl
      | ok v =>
          show ((s.rows.map fun r => if r.id = uid then ⟨u.id, v.name, v.age⟩ else r).map User.id)
            = s.rows.map User.id
          rw [List.map_map]
          refine List.map_congr_left ?_
          intro r hr
          exact putReplId u uid v hid r

/-- C9: every operation of the API preserves the data-model invariant — ids
are pairwise distinct, below the auto-increment counter, and every persisted
name is non-empty and at most 100 characters — every id in the resulting
store either already existed or is the freshly generated one, and a PUT
(whatever `id` value the request body carries) leaves the sequence of stored
ids unchanged: the id is immutable and server-generated. -/
theorem operations_preserve_invariants (s : Store) (m : Method) (p : ApiPath) (b : ReqBody)
    (hWF : s.WF) :
    (dispatch s m p b).2.WF ∧
    (∀ r ∈ (dispatch s m p b).2.rows, r.id = s.nextId ∨ ∃ r0 ∈ s.rows, r0.id = r.id) ∧
    (∀ uid : Nat, (dispatch s .PUT (.userDetailPath uid) b).2.rows.map User.id
      = s.rows.map User.id) :=
  ⟨dispatch_WF s m p b hWF, dispatch_ids s m p b, fun uid => put_preserves_ids s uid b⟩

theorem operations_preserve_invariants_witness :
    (Store.mk [⟨1, "A", 1⟩] 2).WF ∧
    (dispatch ⟨[⟨1, "A", 1⟩], 2⟩ .PUT (.userDetailPath 1)
        ⟨some (.jint 999), some (.jstr "Z"), some (.jint 9)⟩).2.WF :=
  ⟨by decide,
    (operations_preserve_invariants ⟨[⟨1, "A", 1⟩], 2⟩ .PUT (.userDetailPath 1)
      ⟨some (.jint 999), some (.jstr "Z"), some (.jint 9)⟩ (by decide)).1⟩

theorem get_users_lists_all_witness :
    dispatch ⟨[⟨1, "A", 1⟩], 2⟩ .GET .usersList ⟨none, none, none⟩
      = (⟨200, .listBody [⟨1, "A", 1⟩]⟩, ⟨[⟨1, "A", 1⟩], 2⟩) :=
  (get_users_lists_all ⟨[⟨1, "A", 1⟩], 2⟩ ⟨none, none, none⟩).1
